import Mathlib

/-!
Shallow embedding of the water-rate-simulator pricing/demand core
(src/lib/demand.ts, src/lib/montecarlo.ts, src/lib/analytics.ts) over ℚ.

JavaScript numbers are modelled as exact rationals.  The transcendental
library functions the code calls (Math.pow, Math.exp, Math.log) are
parameters of the embedding, collected in a `JsMath` record: every theorem
below holds for an arbitrary interpretation of those functions, except where
a stated hypothesis pins down the one fact used (e.g. pow x 0 = 1).
-/

namespace WaterRate

/-- A pricing tier: `{lower, upper (null = unbounded), price}` from demand.ts. -/
structure TierDefinition where
  lower : ℚ
  upper : Option ℚ
  price : ℚ
  deriving DecidableEq, Repr

/-- Alias `Tier` as exported by demand.ts. -/
abbrev Tier := TierDefinition

/-- Reference usage/price pair from demand.ts. -/
structure BaselineAnchor where
  usage : ℚ
  perceivedPrice : ℚ
  deriving DecidableEq, Repr

/-- Inputs of the single-point demand engine (demand.ts `DemandInputs`). -/
structure DemandInputs where
  connections : ℚ
  elasticity : ℚ
  baseFee : ℚ
  tiers : List TierDefinition
  baseline : Option BaselineAnchor
  billSalience : Option ℚ
  deriving DecidableEq, Repr

/-- Per-connection diagnostic trace (demand.ts `DemandTrace`); the optional
`usageP5`/`usageP95` fields are modelled as `Option ℚ`. -/
structure DemandTrace where
  perConnectionUsage : ℚ
  usageP5 : Option ℚ
  usageP95 : Option ℚ
  marginalPrice : ℚ
  averagePrice : ℚ
  perceivedPrice : ℚ
  billPerConnection : ℚ
  deriving DecidableEq, Repr

/-- Result record shared by the single-point and Monte Carlo engines. -/
structure DemandResult where
  usageMG : ℚ
  revenue : ℚ
  volumetricBillPerConnection : ℚ
  trace : DemandTrace
  warnings : List String
  validationMessage : Option String
  tiersUsed : List TierDefinition
  deriving DecidableEq, Repr

/-- Result of `validateTiers`. -/
structure TierValidationResult where
  tiers : List TierDefinition
  isValid : Bool
  message : Option String
  deriving DecidableEq, Repr

/-- Interpretation of the JavaScript Math functions used by the core. -/
structure JsMath where
  pow : ℚ → ℚ → ℚ
  exp : ℚ → ℚ
  log : ℚ → ℚ

def BASELINE_USAGE : ℚ := 7
def MIN_USAGE : ℚ := 0.1
def MAX_USAGE : ℚ := 60
def MIN_PRICE : ℚ := 0.01
def DEFAULT_ALPHA : ℚ := 0.7
def DEFAULT_BILL_SALIENCE : ℚ := 0.05
def FIXED_POINT_ITERATIONS : ℕ := 12

/-- demand.ts `roundTo`: round to `d` decimals (JS `parseFloat(v.toFixed(d))`),
modelled as round-half-away-from-zero on exact rationals. -/
def roundTo (v : ℚ) (d : ℕ) : ℚ :=
  (if 0 ≤ v then ((⌊v * 10 ^ d + 1 / 2⌋ : ℤ) : ℚ)
   else -((⌊-v * 10 ^ d + 1 / 2⌋ : ℤ) : ℚ)) / 10 ^ d

/-- demand.ts `normalizeTiers`: clamp/round fields, then stable-sort
ascending by `lower`. -/
def normalizeTiers (tiers : List TierDefinition) : List TierDefinition :=
  (tiers.map (fun t =>
    { lower := max 0 (roundTo t.lower 4)
      upper := t.upper.map (fun u => roundTo (max u 0) 4)
      price := max 0 (roundTo t.price 6) })).mergeSort
    (fun a b => a.lower ≤ b.lower)

/-- demand.ts `createFallbackTier`: one unbounded tier priced at the first
tier's price (zero for an empty list). -/
def createFallbackTier (tiers : List TierDefinition) : List TierDefinition :=
  [{ lower := 0, upper := none, price := ((tiers.head?.map TierDefinition.price).getD 0) }]

/-- Validation-loop body of demand.ts `validateTiers`.  `expected` is the
running `expectedLower`.  The source loop sets `expectedLower` to +infinity
after an unbounded tier, so any tier following an unbounded one fails the
contiguity check; a finite last tier falls through to the final
"must extend to infinity" check, which is the `[]` case here. -/
def tierErrorAux (expected : ℚ) : List TierDefinition → Option String
  | [] => some "The final tier must extend to infinity."
  | t :: rest =>
    if ¬(|t.lower - expected| ≤ 1e-6) then
      some "Tiers must be contiguous with no gaps or overlaps."
    else
      match t.upper with
      | none =>
        if rest = [] then none
        else some "Tiers must be contiguous with no gaps or overlaps."
      | some u =>
        if u ≤ t.lower then
          some "Each tier's upper bound must be greater than its lower bound."
        else tierErrorAux u rest

/-- demand.ts `validateTiers`. -/
def validateTiers (tiers : List TierDefinition) : TierValidationResult :=
  match tiers with
  | [] =>
    { tiers := createFallbackTier [{ lower := 0, upper := none, price := 0 }]
      isValid := false
      message := some "Define at least one tier." }
  | _ :: _ =>
    match tierErrorAux 0 tiers with
    | some m => { tiers := createFallbackTier tiers, isValid := false, message := some m }
    | none => { tiers := tiers, isValid := true, message := none }

/-- demand.ts `clampUsage`. -/
def clampUsage (value : ℚ) : ℚ := min (max value MIN_USAGE) MAX_USAGE

/-- demand.ts `computeMarginalPrice`: price of the first tier whose
half-open interval contains `usage`; if no tier matches, the last tier's
price (zero for an empty list). -/
def computeMarginalPrice (usage : ℚ) : List TierDefinition → ℚ
  | [] => 0
  | t :: rest =>
    let inTier : Bool :=
      decide (t.lower ≤ usage) &&
        (match t.upper with | none => true | some u => decide (usage < u))
    if inTier then t.price
    else
      match rest with
      | [] => t.price
      | _ :: _ => computeMarginalPrice usage rest

/-- Usage capped at a tier's upper bound: `min(usage, tier.upper ?? ∞)`. -/
def cappedAt (usage : ℚ) : Option ℚ → ℚ
  | none => usage
  | some u => min usage u

/-- demand.ts `computeVolumetricCharge`: progressive-billing loop with the
two early-exit breaks of the source (an unbounded tier always satisfies
`usage ≤ upper` and stops the loop). -/
def computeVolumetricCharge (usage : ℚ) : List TierDefinition → ℚ
  | [] => 0
  | t :: rest =>
    if usage ≤ t.lower then 0
    else
      let span := cappedAt usage t.upper - t.lower
      let c := if 0 < span then span * t.price else 0
      match t.upper with
      | none => c
      | some u => if usage ≤ u then c else c + computeVolumetricCharge usage rest

/-- demand.ts `computeAveragePrice`. -/
def computeAveragePrice (usage : ℚ) (tiers : List TierDefinition) : ℚ :=
  if usage ≤ 0 then 0 else computeVolumetricCharge usage tiers / usage

/-- demand.ts `computePerceivedPrice`: blend of marginal and average price
plus the base-fee salience term. -/
def computePerceivedPrice (usage : ℚ) (tiers : List TierDefinition) (baseFee : ℚ)
    (alpha : ℚ := DEFAULT_ALPHA) (billSalience : ℚ := 0) : ℚ :=
  let marginal := computeMarginalPrice usage tiers
  let average := computeAveragePrice usage tiers
  let blended := alpha * marginal + (1 - alpha) * average
  let baseImpact := billSalience * (baseFee / max usage MIN_USAGE)
  blended + baseImpact

/-- Return record of `solveUsage`. -/
structure SolveResult where
  usage : ℚ
  marginalPrice : ℚ
  averagePrice : ℚ
  perceivedPrice : ℚ
  deriving DecidableEq, Repr

/-- Fixed-point loop of demand.ts `solveUsage`, with explicit fuel
(`FIXED_POINT_ITERATIONS` in the source).  On convergence within the
tolerance the freshly computed iterate is returned, as in the source. -/
def solveUsageLoop (M : JsMath) (elasticity : ℚ) (tiers : List TierDefinition)
    (baselineUsageClamped referencePrice baseFee billSalience : ℚ) :
    ℕ → ℚ → ℚ
  | 0, usage => usage
  | n + 1, usage =>
    let perceivedPrice :=
      max MIN_PRICE (computePerceivedPrice usage tiers baseFee DEFAULT_ALPHA billSalience)
    let nextUsage :=
      clampUsage (baselineUsageClamped * M.pow (perceivedPrice / referencePrice) elasticity)
    if |nextUsage - usage| < 0.0005 then nextUsage
    else solveUsageLoop M elasticity tiers baselineUsageClamped referencePrice baseFee
      billSalience n nextUsage

/-- demand.ts `solveUsage`: constant-elasticity fixed-point solve anchored at
`(baselineUsage, baselinePrice)`. -/
def solveUsage (M : JsMath) (elasticity : ℚ) (tiers : List TierDefinition)
    (baselineUsage baselinePrice baseFee billSalience : ℚ) : SolveResult :=
  let baselineUsageClamped := clampUsage baselineUsage
  let referencePrice := max MIN_PRICE baselinePrice
  let usage := solveUsageLoop M elasticity tiers baselineUsageClamped referencePrice
    baseFee billSalience FIXED_POINT_ITERATIONS baselineUsageClamped
  { usage := usage
    marginalPrice := computeMarginalPrice usage tiers
    averagePrice := computeAveragePrice usage tiers
    perceivedPrice := computePerceivedPrice usage tiers baseFee DEFAULT_ALPHA billSalience }

/-- demand.ts `calculateDemand`: the single-point demand engine.  The
`Number.isFinite` guard on elasticity and the `|| 0` falsy-coalescings are
identities on exact rationals. -/
def calculateDemand (M : JsMath) (inputs : DemandInputs) : DemandResult :=
  let validation := validateTiers (normalizeTiers inputs.tiers)
  let tiers := validation.tiers
  let elasticity := inputs.elasticity
  let baseFee := max 0 inputs.baseFee
  let connections := max 0 inputs.connections
  let billSalience := inputs.billSalience.getD DEFAULT_BILL_SALIENCE
  let baselineUsage := clampUsage ((inputs.baseline.map BaselineAnchor.usage).getD BASELINE_USAGE)
  let baselinePerceivedPrice :=
    max MIN_PRICE ((inputs.baseline.map BaselineAnchor.perceivedPrice).getD
      (computePerceivedPrice baselineUsage tiers baseFee DEFAULT_ALPHA billSalience))
  let usageSolution :=
    solveUsage M elasticity tiers baselineUsage baselinePerceivedPrice baseFee billSalience
  let volumetricBillPerConnection := computeVolumetricCharge usageSolution.usage tiers
  let billPerConnection := baseFee + volumetricBillPerConnection
  let usageMG := connections * usageSolution.usage / 1000
  let revenue := billPerConnection * connections
  let warnings :=
    (if 0 ≤ elasticity then ["Elasticity should be negative (e.g., −0.10 to −0.30)."] else [])
      ++ (if usageSolution.usage ≤ MIN_USAGE + 1e-3 then
            ["Usage settled at the minimum bound. Check elasticity or price inputs."]
          else if MAX_USAGE - 1e-3 ≤ usageSolution.usage then
            ["Usage reached the maximum bound. Prices may be too low for this elasticity."]
          else [])
  { usageMG := usageMG
    revenue := revenue
    volumetricBillPerConnection := volumetricBillPerConnection
    trace :=
      { perConnectionUsage := usageSolution.usage
        usageP5 := some usageSolution.usage
        usageP95 := some usageSolution.usage
        marginalPrice := usageSolution.marginalPrice
        averagePrice := usageSolution.averagePrice
        perceivedPrice := usageSolution.perceivedPrice
        billPerConnection := billPerConnection }
    warnings := warnings
    validationMessage := if validation.isValid then none else validation.message
    tiersUsed := tiers }

def SAMPLE_SIZE : ℕ := 3000
def ELASTICITY_STD : ℚ := 0.05
def ELASTICITY_MIN : ℚ := -0.4
def ELASTICITY_MAX : ℚ := -0.05

/-- montecarlo.ts `MonteCarloDraws`: the two standard-normal seed arrays. -/
structure MonteCarloDraws where
  q0 : List ℚ
  eps : List ℚ
  deriving DecidableEq, Repr

/-- montecarlo.ts `MonteCarloParams`. -/
structure MonteCarloParams where
  connections : ℚ
  baseFee : ℚ
  tiers : List TierDefinition
  anchor : BaselineAnchor
  draws : MonteCarloDraws
  elasticityMean : ℚ
  usageVar : ℚ
  validationMessage : Option String
  billSalience : ℚ
  deriving DecidableEq, Repr

/-- montecarlo.ts `percentile`: linear interpolation between order
statistics of an already sorted sample. -/
def percentile (sortedValues : List ℚ) (p : ℚ) : ℚ :=
  if sortedValues = [] then 0
  else
    let position := ((sortedValues.length - 1 : ℕ) : ℚ) * p
    let lowerIndex := (⌊position⌋).toNat
    let upperIndex := (⌈position⌉).toNat
    if lowerIndex = upperIndex then sortedValues.getD lowerIndex 0
    else
      let weight := position - (⌊position⌋ : ℚ)
      sortedValues.getD lowerIndex 0 * (1 - weight) + sortedValues.getD upperIndex 0 * weight

/-- montecarlo.ts `clampElasticity`. -/
def clampElasticity (value : ℚ) : ℚ := min (max value ELASTICITY_MIN) ELASTICITY_MAX

/-- montecarlo.ts `buildUsageDraws`: log-normal per-individual baseline
usage seeded by the `q0` draws. -/
def buildUsageDraws (M : JsMath) (anchorUsage usageVar : ℚ) (seeds : List ℚ) : List ℚ :=
  let sigma := max 0.01 usageVar
  let mu := M.log (max anchorUsage MIN_USAGE) - 0.5 * sigma * sigma
  seeds.map (fun z => clampUsage (M.exp (mu + sigma * z)))

/-- Sample count of a Monte Carlo run: `min(q0.length, eps.length)`. -/
def mcSampleCount (p : MonteCarloParams) : ℕ := min p.draws.q0.length p.draws.eps.length

/-- Per-individual elasticity used by `runMonteCarloSimulation` for sample
`i`: the slider mean perturbed by the i-th eps draw, clamped. -/
def mcElasticity (p : MonteCarloParams) (i : ℕ) : ℚ :=
  clampElasticity (p.elasticityMean + ELASTICITY_STD * (p.draws.eps.getD i 0))

/-- Per-individual solved usages of the Monte Carlo loop, in sample order. -/
def mcUsageSamples (M : JsMath) (p : MonteCarloParams) : List ℚ :=
  (List.range (mcSampleCount p)).map (fun i =>
    (solveUsage M (mcElasticity p i) p.tiers
      ((buildUsageDraws M p.anchor.usage p.usageVar p.draws.q0).getD i 0)
      p.anchor.perceivedPrice p.baseFee p.billSalience).usage)

/-- Per-individual bills of the Monte Carlo loop, in sample order. -/
def mcBillSamples (M : JsMath) (p : MonteCarloParams) : List ℚ :=
  (mcUsageSamples M p).map (fun u => p.baseFee + computeVolumetricCharge u p.tiers)

/-- montecarlo.ts `runMonteCarloSimulation`. -/
def runMonteCarloSimulation (M : JsMath) (p : MonteCarloParams) : DemandResult :=
  if mcSampleCount p = 0 then
    { usageMG := 0
      revenue := 0
      volumetricBillPerConnection := 0
      trace :=
        { perConnectionUsage := 0, usageP5 := some 0, usageP95 := some 0
          marginalPrice := 0, averagePrice := 0, perceivedPrice := 0
          billPerConnection := p.baseFee }
      warnings := ["Baseline has not been established yet."]
      validationMessage := p.validationMessage
      tiersUsed := p.tiers }
  else
    let usageSamples := mcUsageSamples M p
    let billSamples := mcBillSamples M p
    let weight := p.connections / (mcSampleCount p : ℚ)
    let usageMG := usageSamples.sum * weight / 1000
    let revenue := billSamples.sum * weight
    let sortedUsage := usageSamples.mergeSort (fun a b => a ≤ b)
    let sortedBills := billSamples.mergeSort (fun a b => a ≤ b)
    let usageP5 := percentile sortedUsage 0.05
    let usageMedian := percentile sortedUsage 0.5
    let usageP95 := percentile sortedUsage 0.95
    let billMedian := percentile sortedBills 0.5
    let warnings :=
      (if 0 ≤ p.elasticityMean then
        ["Elasticity should be negative (e.g., −0.10 to −0.30)."] else [])
        ++ (if usageP5 ≤ MIN_USAGE + 1e-3 then
              ["Some customers are hitting the minimum usage bound."] else [])
        ++ (if MAX_USAGE - 1e-3 ≤ usageP95 then
              ["Some customers are hitting the maximum usage bound."] else [])
    { usageMG := usageMG
      revenue := revenue
      volumetricBillPerConnection := max (billMedian - p.baseFee) 0
      trace :=
        { perConnectionUsage := usageMedian
          usageP5 := some usageP5
          usageP95 := some usageP95
          marginalPrice := computeMarginalPrice usageMedian p.tiers
          averagePrice := computeAveragePrice usageMedian p.tiers
          perceivedPrice :=
            computePerceivedPrice usageMedian p.tiers p.baseFee DEFAULT_ALPHA p.billSalience
          billPerConnection := billMedian }
      warnings := warnings
      validationMessage := p.validationMessage
      tiersUsed := p.tiers }

/-- analytics.ts `DecileImpact`. -/
structure DecileImpact where
  decile : String
  deltaMG : ℚ
  pctOfTotal : ℚ
  deriving DecidableEq, Repr

/-- Sample indices sorted ascending by baseline usage — the
`indices.sort((a, b) => q0[a] - q0[b])` step of `computeDecileImpacts`. -/
def decileIndices (q0 q1 : List ℚ) : List ℕ :=
  (List.range (min q0.length q1.length)).mergeSort (fun a b => q0.getD a 0 ≤ q0.getD b 0)

/-- The inner loop of `computeDecileImpacts`: the raw usage delta summed
over decile `d`'s members (indices `Math.floor(d·S/10)` up to
`Math.floor((d+1)·S/10)` of the sorted order). -/
def decileSegmentDelta (q0 q1 : List ℚ) (d : ℕ) : ℚ :=
  let sampleCount := min q0.length q1.length
  let start := d * sampleCount / 10
  let stop := (d + 1) * sampleCount / 10
  ((((decileIndices q0 q1).drop start).take (stop - start)).map
    (fun j => q1.getD j 0 - q0.getD j 0)).sum

/-- analytics.ts `computeDecileImpacts`: sort individuals by baseline usage,
split into ten equal-count groups, and report each group's weighted usage
delta plus its share of the total. -/
def computeDecileImpacts (q0 q1 : List ℚ) (connections : ℚ) : List DecileImpact :=
  let sampleCount := min q0.length q1.length
  if sampleCount = 0 ∨ connections = 0 then
    (List.range 10).map (fun i => { decile := "D" ++ toString (i + 1), deltaMG := 0, pctOfTotal := 0 })
  else
    let weight := connections / (sampleCount : ℚ) / 1000
    let impacts := (List.range 10).map (fun d =>
      ({ decile := "D" ++ toString (d + 1), deltaMG := decileSegmentDelta q0 q1 d * weight,
         pctOfTotal := 0 } : DecileImpact))
    let totalDeltaMG := (impacts.map DecileImpact.deltaMG).sum
    let denominator := if totalDeltaMG = 0 then 1 else totalDeltaMG
    impacts.map (fun impact => { impact with pctOfTotal := impact.deltaMG / denominator })

/-- Exact tier-set validity (the spec's data-model invariants with exact
contiguity): first lower is `b`, each finite upper strictly exceeds its
lower, each next lower equals the previous upper exactly, and exactly the
last tier is unbounded. -/
def chainedFrom (b : ℚ) : List TierDefinition → Bool
  | [] => false
  | t :: rest =>
    decide (t.lower = b) &&
      (match t.upper with
       | none => rest.isEmpty
       | some u => decide (b < u) && chainedFrom u rest)

/-- Tolerance tier-set validity: the structural property `validateTiers`
actually accepts, with lowers matching the previous upper only within the
1e-6 tolerance of the source. -/
def tolChainedFrom (b : ℚ) : List TierDefinition → Bool
  | [] => false
  | t :: rest =>
    decide (|t.lower - b| ≤ 1e-6) &&
      (match t.upper with
       | none => rest.isEmpty
       | some u => decide (t.lower < u) && tolChainedFrom u rest)

/-- Modelled from the spec: the claimed closed form of the volumetric
charge, "the sum of price_i × width_i over fully-covered tiers plus a
partial term for the active tier", written tier-wise as
`Σ price_i · max 0 (min(usage, upper_i) − lower_i)`.  For an exact
partition of usage space this is exactly that sum; it is compared with the
source-derived `computeVolumetricCharge`. -/
def computeVolumetricChargeSpec (usage : ℚ) (tiers : List TierDefinition) : ℚ :=
  (tiers.map (fun t => t.price * max 0 (cappedAt usage t.upper - t.lower))).sum

/-- Sum of all tier prices; a Lipschitz constant for the volumetric charge. -/
def priceSum (tiers : List TierDefinition) : ℚ :=
  (tiers.map TierDefinition.price).sum

/-- A concrete interpretation of the JavaScript Math functions used to
instantiate witnesses and counterexamples.  It agrees with Math.pow on the
only case the zero-elasticity trajectories evaluate: Math.pow(x, 0) = 1 for
every x in JavaScript. -/
def jsMathOne : JsMath := { pow := fun _ _ => 1, exp := fun _ => 1, log := fun _ => 1 }

/-- Concrete Monte Carlo parameters (one draw per array) for witnesses. -/
def mcParamsW : MonteCarloParams :=
  { connections := 1000
    baseFee := 20
    tiers := [{ lower := 0, upper := none, price := 1 }]
    anchor := { usage := 7, perceivedPrice := 4 }
    draws := { q0 := [0], eps := [0] }
    elasticityMean := -0.2
    usageVar := 0.3
    validationMessage := none
    billSalience := 0.05 }

/-- Concrete Monte Carlo parameters with an empty q0 draw array. -/
def mcParamsEmptyW : MonteCarloParams :=
  { mcParamsW with draws := { q0 := [], eps := [1] } }

/-! ## Theorems -/

theorem clampUsage_le_max (x : ℚ) : clampUsage x ≤ MAX_USAGE := min_le_right _ _

theorem min_le_clampUsage (x : ℚ) : MIN_USAGE ≤ clampUsage x := by
  refine le_min (le_max_right _ _) ?_
  norm_num [MIN_USAGE, MAX_USAGE]

theorem clampUsage_of_mem {x : ℚ} (h1 : MIN_USAGE ≤ x) (h2 : x ≤ MAX_USAGE) :
    clampUsage x = x := by
  rw [clampUsage, max_eq_left h1, min_eq_left h2]

theorem clampUsage_idem (x : ℚ) : clampUsage (clampUsage x) = clampUsage x :=
  clampUsage_of_mem (min_le_clampUsage x) (clampUsage_le_max x)

/-- C5: for every usage, tier list, base fee, alpha and bill salience, the
perceived price equals `alpha·marginal + (1−alpha)·average +
billSalience·(baseFee / max(usage, MIN_USAGE))`, and the default alpha is
0.7. -/
theorem perceivedPrice_blend_formula (usage : ℚ) (tiers : List TierDefinition)
    (baseFee alpha billSalience : ℚ) :
    computePerceivedPrice usage tiers baseFee alpha billSalience =
        alpha * computeMarginalPrice usage tiers
          + (1 - alpha) * computeAveragePrice usage tiers
          + billSalience * (baseFee / max usage MIN_USAGE)
      ∧ DEFAULT_ALPHA = 0.7 :=
  ⟨rfl, rfl⟩

/-- C8: the single-point `calculateDemand` path reports `usageP5` and
`usageP95` both equal to the point estimate `perConnectionUsage` — a
degenerate distribution. -/
theorem calculateDemand_degenerate_percentiles (M : JsMath) (inputs : DemandInputs) :
    (calculateDemand M inputs).trace.usageP5
        = some ((calculateDemand M inputs).trace.perConnectionUsage)
      ∧ (calculateDemand M inputs).trace.usageP95
        = some ((calculateDemand M inputs).trace.perConnectionUsage) :=
  ⟨rfl, rfl⟩

/-- C9: every per-individual elasticity the Monte Carlo loop hands to the
Equilibrium Solver (`mcElasticity`, the expression used inside
`runMonteCarloSimulation` via `mcUsageSamples`) is clamped to
`[-0.4, -0.05]`, hence strictly negative, whatever the mean. -/
theorem mcElasticity_clamped (p : MonteCarloParams) (i : ℕ)
    (h : i < mcSampleCount p) :
    ELASTICITY_MIN ≤ mcElasticity p i ∧ mcElasticity p i ≤ ELASTICITY_MAX
      ∧ mcElasticity p i < 0 := by
  refine ⟨le_min (le_max_right _ _) (by norm_num [ELASTICITY_MIN, ELASTICITY_MAX]),
    min_le_right _ _, lt_of_le_of_lt (min_le_right _ _) ?_⟩
  norm_num [ELASTICITY_MAX]

theorem mcElasticity_clamped_witness :
    0 < mcSampleCount mcParamsW
      ∧ (ELASTICITY_MIN ≤ mcElasticity mcParamsW 0
          ∧ mcElasticity mcParamsW 0 ≤ ELASTICITY_MAX
          ∧ mcElasticity mcParamsW 0 < 0) :=
  ⟨by decide, mcElasticity_clamped mcParamsW 0 (by decide)⟩

/-- C10: with either draw array empty, the Monte Carlo engine returns the
zeroed early-exit result (bill per connection equal to the base fee, the
single baseline warning) without consulting the solver — the result is the
same explicit record for every interpretation `M` of the Math functions. -/
theorem runMonteCarlo_empty_draws (M : JsMath) (p : MonteCarloParams)
    (h : p.draws.q0 = [] ∨ p.draws.eps = []) :
    runMonteCarloSimulation M p =
      { usageMG := 0
        revenue := 0
        volumetricBillPerConnection := 0
        trace :=
          { perConnectionUsage := 0, usageP5 := some 0, usageP95 := some 0
            marginalPrice := 0, averagePrice := 0, perceivedPrice := 0
            billPerConnection := p.baseFee }
        warnings := ["Baseline has not been established yet."]
        validationMessage := p.validationMessage
        tiersUsed := p.tiers } := by
  have h0 : mcSampleCount p = 0 := by
    rcases h with h | h <;> simp [mcSampleCount, h]
  rw [runMonteCarloSimulation, if_pos h0]

theorem runMonteCarlo_empty_draws_witness :
    (mcParamsEmptyW.draws.q0 = [] ∨ mcParamsEmptyW.draws.eps = [])
      ∧ runMonteCarloSimulation jsMathOne mcParamsEmptyW =
        { usageMG := 0
          revenue := 0
          volumetricBillPerConnection := 0
          trace :=
            { perConnectionUsage := 0, usageP5 := some 0, usageP95 := some 0
              marginalPrice := 0, averagePrice := 0, perceivedPrice := 0
              billPerConnection := 20 }
          warnings := ["Baseline has not been established yet."]
          validationMessage := none
          tiersUsed := [{ lower := 0, upper := none, price := 1 }] } :=
  ⟨Or.inl rfl, runMonteCarlo_empty_draws jsMathOne mcParamsEmptyW (Or.inl rfl)⟩

theorem runMonteCarlo_usageMG_eq (M : JsMath) (p : MonteCarloParams) :
    (runMonteCarloSimulation M p).usageMG =
      if mcSampleCount p = 0 then 0
      else (mcUsageSamples M p).sum * (p.connections / (mcSampleCount p : ℚ)) / 1000 := by
  rw [runMonteCarloSimulation]
  split <;> rfl

theorem runMonteCarlo_revenue_eq (M : JsMath) (p : MonteCarloParams) :
    (runMonteCarloSimulation M p).revenue =
      if mcSampleCount p = 0 then 0
      else (mcBillSamples M p).sum * (p.connections / (mcSampleCount p : ℚ)) := by
  rw [runMonteCarloSimulation]
  split <;> rfl

/-- C6: doubling `connections` while keeping the draws, tiers, base fee,
elasticity mean, usage variety and bill salience identical exactly doubles
the Monte Carlo total usage volume and total revenue. -/
theorem runMonteCarlo_scales_with_connections (M : JsMath) (p : MonteCarloParams)
    (h : mcSampleCount p ≠ 0) :
    (runMonteCarloSimulation M { p with connections := 2 * p.connections }).usageMG
        = 2 * (runMonteCarloSimulation M p).usageMG
      ∧ (runMonteCarloSimulation M { p with connections := 2 * p.connections }).revenue
        = 2 * (runMonteCarloSimulation M p).revenue := by
  have hs : mcSampleCount { p with connections := 2 * p.connections } = mcSampleCount p := rfl
  have hu : mcUsageSamples M { p with connections := 2 * p.connections } = mcUsageSamples M p := rfl
  have hb : mcBillSamples M { p with connections := 2 * p.connections } = mcBillSamples M p := rfl
  have hc : ({ p with connections := 2 * p.connections } : MonteCarloParams).connections
      = 2 * p.connections := rfl
  constructor
  · rw [runMonteCarlo_usageMG_eq, runMonteCarlo_usageMG_eq, hs, if_neg h, if_neg h, hu, hc]
    ring
  · rw [runMonteCarlo_revenue_eq, runMonteCarlo_revenue_eq, hs, if_neg h, if_neg h, hb, hc]
    ring

theorem runMonteCarlo_scales_with_connections_witness :
    mcSampleCount mcParamsW ≠ 0
      ∧ ((runMonteCarloSimulation jsMathOne
            { mcParamsW with connections := 2 * mcParamsW.connections }).usageMG
          = 2 * (runMonteCarloSimulation jsMathOne mcParamsW).usageMG
        ∧ (runMonteCarloSimulation jsMathOne
            { mcParamsW with connections := 2 * mcParamsW.connections }).revenue
          = 2 * (runMonteCarloSimulation jsMathOne mcParamsW).revenue) :=
  ⟨by decide, runMonteCarlo_scales_with_connections jsMathOne mcParamsW (by decide)⟩

theorem solveUsageLoop_zero_elasticity (M : JsMath) (hM : ∀ b, M.pow b 0 = 1)
    (tiers : List TierDefinition) (q ref fee sal : ℚ) (hq : clampUsage q = q) (n : ℕ) :
    solveUsageLoop M 0 tiers q ref fee sal (n + 1) q = q := by
  rw [solveUsageLoop]
  simp only [hM, mul_one, hq, sub_self, abs_zero]
  norm_num

/-- C1 (amended): with elasticity 0 the Equilibrium Solver returns
`clampUsage baselineUsage` — equal to `baselineUsage` exactly whenever the
baseline lies in `[MIN_USAGE, MAX_USAGE]`, but the clamped bound otherwise.
The only fact about Math.pow the trajectory uses is `pow x 0 = 1`. -/
theorem solveUsage_zero_elasticity (M : JsMath) (hM : ∀ b, M.pow b 0 = 1)
    (tiers : List TierDefinition) (baselineUsage baselinePrice baseFee billSalience : ℚ) :
    (solveUsage M 0 tiers baselineUsage baselinePrice baseFee billSalience).usage
      = clampUsage baselineUsage := by
  show solveUsageLoop M 0 tiers (clampUsage baselineUsage) (max MIN_PRICE baselinePrice)
      baseFee billSalience FIXED_POINT_ITERATIONS (clampUsage baselineUsage)
    = clampUsage baselineUsage
  have h12 : FIXED_POINT_ITERATIONS = 11 + 1 := rfl
  rw [h12, solveUsageLoop_zero_elasticity M hM tiers _ _ _ _ (clampUsage_idem baselineUsage)]

/-- C1 (counterexample): at baseline usage 100 (above `MAX_USAGE = 60`) the
zero-elasticity solve returns 60, not the baseline usage 100. -/
theorem solveUsage_zero_elasticity_counterexample :
    jsMathOne.pow 5 0 = 1
      ∧ (solveUsage jsMathOne 0 [{ lower := 0, upper := none, price := 1 }] 100 1 0 0).usage = 60
      ∧ (60 : ℚ) ≠ 100 := by
  refine ⟨rfl, ?_, by norm_num⟩
  have hc : clampUsage 100 = 60 := by
    norm_num [clampUsage, MIN_USAGE, MAX_USAGE, max_def, min_def]
  show solveUsageLoop jsMathOne 0 [{ lower := 0, upper := none, price := 1 }]
      (clampUsage 100) (max MIN_PRICE 1) 0 0 FIXED_POINT_ITERATIONS (clampUsage 100) = 60
  rw [hc]
  have h12 : FIXED_POINT_ITERATIONS = 11 + 1 := rfl
  rw [h12]
  exact solveUsageLoop_zero_elasticity jsMathOne (fun _ => rfl) _ 60 _ 0 0
    (by norm_num [clampUsage, MIN_USAGE, MAX_USAGE, max_def, min_def]) 11

theorem solveUsage_zero_elasticity_witness :
    jsMathOne.pow 3 0 = 1
      ∧ (solveUsage jsMathOne 0 [{ lower := 0, upper := none, price := 2 }] 7 1 0 0).usage
        = clampUsage 7
      ∧ clampUsage 7 = 7 :=
  ⟨rfl, solveUsage_zero_elasticity jsMathOne (fun _ => rfl) _ 7 1 0 0,
    by norm_num [clampUsage, MIN_USAGE, MAX_USAGE, max_def, min_def]⟩

theorem tierErrorAux_message_ne (ts : List TierDefinition) :
    ∀ b m, tierErrorAux b ts = some m → m ≠ "" := by
  induction ts with
  | nil =>
    intro b m h
    rw [tierErrorAux] at h
    injection h with h
    subst h
    decide
  | cons t rest ih =>
    intro b m h
    rw [tierErrorAux] at h
    by_cases h1 : |t.lower - b| ≤ 1e-6
    · rw [if_neg (not_not_intro h1)] at h
      cases hu : t.upper with
      | none =>
        simp only [hu] at h
        by_cases h2 : rest = []
        · rw [if_pos h2] at h
          exact absurd h (by simp)
        · rw [if_neg h2] at h
          injection h with h
          subst h
          decide
      | some u =>
        simp only [hu] at h
        by_cases h3 : u ≤ t.lower
        · rw [if_pos h3] at h
          injection h with h
          subst h
          decide
        · rw [if_neg h3] at h
          exact ih u m h
    · rw [if_pos h1] at h
      injection h with h
      subst h
      decide

theorem tierErrorAux_of_chained (ts : List TierDefinition) :
    ∀ b, chainedFrom b ts = true → tierErrorAux b ts = none := by
  induction ts with
  | nil =>
    intro b h
    rw [chainedFrom] at h
    exact absurd h (by simp)
  | cons t rest ih =>
    intro b h
    rw [chainedFrom] at h
    simp only [Bool.and_eq_true, decide_eq_true_eq] at h
    obtain ⟨hlb, hrest⟩ := h
    have habs : |t.lower - b| ≤ 1e-6 := by
      rw [hlb, sub_self, abs_zero]
      norm_num
    rw [tierErrorAux, if_neg (not_not_intro habs)]
    cases hu : t.upper with
    | none =>
      simp only [hu] at hrest ⊢
      rw [if_pos (List.isEmpty_iff.mp hrest)]
    | some u =>
      simp only [hu, Bool.and_eq_true, decide_eq_true_eq] at hrest
      obtain ⟨hbu, hch⟩ := hrest
      show (if u ≤ t.lower then
          some "Each tier's upper bound must be greater than its lower bound."
        else tierErrorAux u rest) = none
      rw [if_neg (not_le.mpr (by rw [hlb]; exact hbu))]
      exact ih u hch

theorem tolChained_of_tierErrorAux (ts : List TierDefinition) :
    ∀ b, tierErrorAux b ts = none → tolChainedFrom b ts = true := by
  induction ts with
  | nil =>
    intro b h
    rw [tierErrorAux] at h
    exact absurd h (by simp)
  | cons t rest ih =>
    intro b h
    rw [tierErrorAux] at h
    by_cases h1 : |t.lower - b| ≤ 1e-6
    · rw [if_neg (not_not_intro h1)] at h
      rw [tolChainedFrom]
      cases hu : t.upper with
      | none =>
        simp only [hu] at h ⊢
        by_cases h2 : rest = []
        · simp [h1, h2]
        · rw [if_neg h2] at h
          exact absurd h (by simp)
      | some u =>
        simp only [hu] at h ⊢
        by_cases h3 : u ≤ t.lower
        · rw [if_pos h3] at h
          exact absurd h (by simp)
        · rw [if_neg h3] at h
          simp [h1, not_le.mp h3, ih u h]
    · rw [if_pos h1] at h
      exact absurd h (by simp)

/-- C3: an exactly contiguous, ascending tier list starting at 0 with each
finite upper above its lower and exactly the last tier unbounded passes
`validateTiers` unchanged with `isValid = true`; any list failing the
structural property the code checks (gap or overlap beyond the 1e-6
tolerance, non-positive tier width, finite last tier, or no tiers) is
replaced by the single unbounded fallback tier with `isValid = false` and a
non-empty message. -/
theorem validateTiers_cons_eq (t : TierDefinition) (rest : List TierDefinition) :
    validateTiers (t :: rest) =
      match tierErrorAux 0 (t :: rest) with
      | some m =>
        { tiers := createFallbackTier (t :: rest), isValid := false, message := some m }
      | none => { tiers := t :: rest, isValid := true, message := none } := rfl

theorem validateTiers_round_trip (ts : List TierDefinition) :
    (chainedFrom 0 ts = true →
        validateTiers ts = { tiers := ts, isValid := true, message := none })
      ∧ (tolChainedFrom 0 ts = false →
          (validateTiers ts).isValid = false
            ∧ (validateTiers ts).tiers = createFallbackTier ts
            ∧ ∃ m, (validateTiers ts).message = some m ∧ m ≠ "") := by
  constructor
  · intro h
    have hne : ts ≠ [] := by
      intro he
      rw [he, chainedFrom] at h
      exact absurd h (by simp)
    obtain ⟨t, rest, rfl⟩ := List.exists_cons_of_ne_nil hne
    rw [validateTiers_cons_eq, tierErrorAux_of_chained _ 0 h]
  · intro h
    cases ts with
    | nil =>
      exact ⟨rfl, rfl, "Define at least one tier.", rfl, by decide⟩
    | cons t rest =>
      cases heq : tierErrorAux 0 (t :: rest) with
      | none =>
        exact absurd (tolChained_of_tierErrorAux _ 0 heq) (by simp [h])
      | some m =>
        rw [validateTiers_cons_eq, heq]
        exact ⟨rfl, rfl, m, rfl, tierErrorAux_message_ne _ 0 m heq⟩

theorem validateTiers_round_trip_witness :
    chainedFrom 0 [({ lower := 0, upper := some 5, price := 3.5 } : TierDefinition),
        { lower := 5, upper := none, price := 5 }] = true
      ∧ validateTiers [({ lower := 0, upper := some 5, price := 3.5 } : TierDefinition),
            { lower := 5, upper := none, price := 5 }]
          = { tiers := [{ lower := 0, upper := some 5, price := 3.5 },
                { lower := 5, upper := none, price := 5 }], isValid := true, message := none }
      ∧ tolChainedFrom 0 [({ lower := 0, upper := some 5, price := 3 } : TierDefinition),
          { lower := 7, upper := none, price := 9 }] = false
      ∧ ((validateTiers [({ lower := 0, upper := some 5, price := 3 } : TierDefinition),
              { lower := 7, upper := none, price := 9 }]).isValid = false
          ∧ (validateTiers [({ lower := 0, upper := some 5, price := 3 } : TierDefinition),
              { lower := 7, upper := none, price := 9 }]).tiers
            = createFallbackTier [{ lower := 0, upper := some 5, price := 3 },
                { lower := 7, upper := none, price := 9 }]
          ∧ ∃ m, (validateTiers [({ lower := 0, upper := some 5, price := 3 } : TierDefinition),
              { lower := 7, upper := none, price := 9 }]).message = some m ∧ m ≠ "") := by
  have hgood : chainedFrom 0 [({ lower := 0, upper := some 5, price := 3.5 } : TierDefinition),
      { lower := 5, upper := none, price := 5 }] = true := by
    simp [chainedFrom]
  have hbad : tolChainedFrom 0 [({ lower := 0, upper := some 5, price := 3 } : TierDefinition),
      { lower := 7, upper := none, price := 9 }] = false := by
    simp [tolChainedFrom]
    norm_num
  exact ⟨hgood, (validateTiers_round_trip _).1 hgood, hbad, (validateTiers_round_trip _).2 hbad⟩

/-- C4 (counterexample): on `[0–5 @ 3, 7–∞ @ 9]` the offending tier is the
second one (price 9), yet the fallback tier is priced 3 — the price of the
FIRST tier of the list, not of the first offending tier. -/
theorem validateTiers_fallback_counterexample :
    validateTiers [({ lower := 0, upper := some 5, price := 3 } : TierDefinition),
          { lower := 7, upper := none, price := 9 }]
        = { tiers := [{ lower := 0, upper := none, price := 3 }]
            isValid := false
            message := some "Tiers must be contiguous with no gaps or overlaps." }
      ∧ (3 : ℚ) ≠ 9 := by
  constructor
  · have herr : tierErrorAux 0 [({ lower := 0, upper := some 5, price := 3 } : TierDefinition),
        { lower := 7, upper := none, price := 9 }]
        = some "Tiers must be contiguous with no gaps or overlaps." := by
      rw [tierErrorAux]
      rw [if_neg (not_not_intro (by norm_num : |(0 : ℚ) - 0| ≤ 1e-6))]
      simp only
      rw [if_neg (by norm_num : ¬((5 : ℚ) ≤ 0))]
      rw [tierErrorAux]
      rw [if_pos (by norm_num : ¬(|(7 : ℚ) - 5| ≤ 1e-6))]
    rw [validateTiers_cons_eq, herr]
    rfl
  · norm_num

/-- C4 (amended): whenever validation fails, the result carries a non-empty
message and the fallback Tier Set of one unbounded tier priced at the FIRST
tier's price — zero when the list is empty. -/
theorem validateTiers_fallback_first_price (ts : List TierDefinition)
    (h : (validateTiers ts).isValid = false) :
    (validateTiers ts).tiers
        = [{ lower := 0, upper := none,
             price := (ts.head?.map TierDefinition.price).getD 0 }]
      ∧ ∃ m, (validateTiers ts).message = some m ∧ m ≠ "" := by
  cases ts with
  | nil =>
    exact ⟨rfl, "Define at least one tier.", rfl, by decide⟩
  | cons t rest =>
    cases heq : tierErrorAux 0 (t :: rest) with
    | none =>
      rw [validateTiers_cons_eq, heq] at h
      simp at h
    | some m =>
      rw [validateTiers_cons_eq, heq]
      exact ⟨rfl, m, rfl, tierErrorAux_message_ne _ 0 m heq⟩

theorem validateTiers_fallback_first_price_witness :
    (validateTiers [({ lower := 0, upper := some 5, price := 3 } : TierDefinition),
        { lower := 7, upper := none, price := 9 }]).isValid = false
      ∧ ((validateTiers [({ lower := 0, upper := some 5, price := 3 } : TierDefinition),
            { lower := 7, upper := none, price := 9 }]).tiers
          = [{ lower := 0, upper := none, price := 3 }]
        ∧ ∃ m, (validateTiers [({ lower := 0, upper := some 5, price := 3 } : TierDefinition),
            { lower := 7, upper := none, price := 9 }]).message = some m ∧ m ≠ "") := by
  have herr : tierErrorAux 0 [({ lower := 0, upper := some 5, price := 3 } : TierDefinition),
      { lower := 7, upper := none, price := 9 }]
      = some "Tiers must be contiguous with no gaps or overlaps." := by
    rw [tierErrorAux]
    rw [if_neg (not_not_intro (by norm_num : |(0 : ℚ) - 0| ≤ 1e-6))]
    simp only
    rw [if_neg (by norm_num : ¬((5 : ℚ) ≤ 0))]
    rw [tierErrorAux]
    rw [if_pos (by norm_num : ¬(|(7 : ℚ) - 5| ≤ 1e-6))]
  have hinv : (validateTiers [({ lower := 0, upper := some 5, price := 3 } : TierDefinition),
      { lower := 7, upper := none, price := 9 }]).isValid = false := by
    rw [validateTiers_cons_eq, herr]
  exact ⟨hinv, validateTiers_fallback_first_price _ hinv⟩

theorem cappedAt_le (u : ℚ) (up : Option ℚ) : cappedAt u up ≤ u := by
  cases up with
  | none => exact le_rfl
  | some v => exact min_le_left u v

theorem cappedAt_mono {u1 u2 : ℚ} (h : u1 ≤ u2) (up : Option ℚ) :
    cappedAt u1 up ≤ cappedAt u2 up := by
  cases up with
  | none => exact h
  | some v => exact min_le_min h le_rfl

theorem cappedAt_sub_le {u1 u2 : ℚ} (h : u1 ≤ u2) (up : Option ℚ) :
    cappedAt u2 up - cappedAt u1 up ≤ u2 - u1 := by
  cases up with
  | none => exact le_rfl
  | some v =>
    rcases le_total u2 v with h2 | h2
    · rw [cappedAt, cappedAt, min_eq_left h2, min_eq_left (h.trans h2)]
    · rcases le_total u1 v with h1 | h1
      · rw [cappedAt, cappedAt, min_eq_right h2, min_eq_left h1]
        linarith
      · rw [cappedAt, cappedAt, min_eq_right h2, min_eq_right h1]
        linarith

theorem max_zero_sub_le {a b : ℚ} (h : b ≤ a) : max 0 a - max 0 b ≤ a - b := by
  rcases le_total a 0 with ha | ha
  · rw [max_eq_left ha, max_eq_left (h.trans ha)]
    linarith
  · rw [max_eq_right ha]
    rcases le_total b 0 with hb | hb
    · rw [max_eq_left hb]
      linarith
    · rw [max_eq_right hb]

theorem chargeSpec_nil (u : ℚ) : computeVolumetricChargeSpec u [] = 0 := rfl

theorem chargeSpec_cons (u : ℚ) (t : TierDefinition) (rest : List TierDefinition) :
    computeVolumetricChargeSpec u (t :: rest)
      = t.price * max 0 (cappedAt u t.upper - t.lower)
        + computeVolumetricChargeSpec u rest := by
  simp [computeVolumetricChargeSpec]

theorem priceSum_cons (t : TierDefinition) (rest : List TierDefinition) :
    priceSum (t :: rest) = t.price + priceSum rest := by
  simp [priceSum]

theorem chargeSpec_mono (ts : List TierDefinition) (hp : ∀ t ∈ ts, 0 ≤ t.price)
    {u1 u2 : ℚ} (h : u1 ≤ u2) :
    computeVolumetricChargeSpec u1 ts ≤ computeVolumetricChargeSpec u2 ts := by
  induction ts with
  | nil => simp [computeVolumetricChargeSpec]
  | cons t rest ih =>
    rw [chargeSpec_cons, chargeSpec_cons]
    refine add_le_add ?_ (ih (fun x hx => hp x (List.mem_cons_of_mem t hx)))
    refine mul_le_mul_of_nonneg_left ?_ (hp t (List.mem_cons_self t rest))
    exact max_le_max le_rfl (sub_le_sub_right (cappedAt_mono h t.upper) _)

theorem chargeSpec_lipschitz (ts : List TierDefinition) (hp : ∀ t ∈ ts, 0 ≤ t.price)
    {u1 u2 : ℚ} (h : u1 ≤ u2) :
    computeVolumetricChargeSpec u2 ts - computeVolumetricChargeSpec u1 ts
      ≤ priceSum ts * (u2 - u1) := by
  induction ts with
  | nil => simp [computeVolumetricChargeSpec, priceSum]
  | cons t rest ih =>
    rw [chargeSpec_cons, chargeSpec_cons, priceSum_cons]
    have hpt := hp t (List.mem_cons_self t rest)
    have hrest := ih (fun x hx => hp x (List.mem_cons_of_mem t hx))
    have hterm : t.price * max 0 (cappedAt u2 t.upper - t.lower)
        - t.price * max 0 (cappedAt u1 t.upper - t.lower) ≤ t.price * (u2 - u1) := by
      rw [← mul_sub]
      refine mul_le_mul_of_nonneg_left ?_ hpt
      refine (max_zero_sub_le (sub_le_sub_right (cappedAt_mono h t.upper) _)).trans ?_
      have := cappedAt_sub_le h t.upper
      linarith
    have hdist : (t.price + priceSum rest) * (u2 - u1)
        = t.price * (u2 - u1) + priceSum rest * (u2 - u1) := by ring
    linarith

theorem chainedFrom_spec_zero (ts : List TierDefinition) :
    ∀ b, chainedFrom b ts = true → ∀ u, u ≤ b → computeVolumetricChargeSpec u ts = 0 := by
  induction ts with
  | nil => intro b _ u _; rfl
  | cons t rest ih =>
    intro b h u hub
    rw [chainedFrom] at h
    simp only [Bool.and_eq_true, decide_eq_true_eq] at h
    obtain ⟨hlb, hrest⟩ := h
    rw [chargeSpec_cons]
    cases hu : t.upper with
    | none =>
      simp only [hu] at hrest
      have hcap : cappedAt u (none : Option ℚ) - t.lower ≤ 0 := by
        rw [cappedAt, hlb]
        linarith
      rw [max_eq_left hcap, mul_zero, zero_add, List.isEmpty_iff.mp hrest]
      rfl
    | some up =>
      simp only [hu, Bool.and_eq_true, decide_eq_true_eq] at hrest
      obtain ⟨hbu, hch⟩ := hrest
      have hcap : cappedAt u (some up) - t.lower ≤ 0 := by
        rw [cappedAt, hlb]
        have := min_le_left u up
        linarith
      rw [max_eq_left hcap, mul_zero, zero_add]
      exact ih up hch u (hub.trans hbu.le)

theorem charge_eq_chargeSpec (ts : List TierDefinition) :
    ∀ b, chainedFrom b ts = true → ∀ u,
      computeVolumetricCharge u ts = computeVolumetricChargeSpec u ts := by
  induction ts with
  | nil =>
    intro b h u
    rw [chainedFrom] at h
    exact absurd h (by simp)
  | cons t rest ih =>
    intro b h u
    rw [chainedFrom] at h
    simp only [Bool.and_eq_true, decide_eq_true_eq] at h
    obtain ⟨hlb, hrest⟩ := h
    rw [chargeSpec_cons]
    by_cases hul : u ≤ t.lower
    · rw [computeVolumetricCharge, if_pos hul]
      have hcap : cappedAt u t.upper - t.lower ≤ 0 := by
        have := cappedAt_le u t.upper
        linarith
      rw [max_eq_left hcap, mul_zero, zero_add]
      cases hu : t.upper with
      | none =>
        simp only [hu] at hrest
        rw [List.isEmpty_iff.mp hrest]
        rfl
      | some up =>
        simp only [hu, Bool.and_eq_true, decide_eq_true_eq] at hrest
        obtain ⟨hbu, hch⟩ := hrest
        exact (chainedFrom_spec_zero rest up hch u ((hul.trans_eq hlb).trans hbu.le)).symm
    · push_neg at hul
      cases hu : t.upper with
      | none =>
        simp only [hu] at hrest
        rw [computeVolumetricCharge, hu, if_neg (not_le.mpr hul)]
        dsimp only [cappedAt]
        have hspan : 0 < u - t.lower := by linarith
        rw [if_pos hspan, List.isEmpty_iff.mp hrest, chargeSpec_nil,
          max_eq_right hspan.le]
        ring
      | some up =>
        simp only [hu, Bool.and_eq_true, decide_eq_true_eq] at hrest
        obtain ⟨hbu, hch⟩ := hrest
        have hlu : t.lower < up := by rw [hlb]; exact hbu
        rw [computeVolumetricCharge, hu, if_neg (not_le.mpr hul)]
        dsimp only [cappedAt]
        have hspan : 0 < min u up - t.lower := by
          have := lt_min hul hlu
          linarith
        rw [if_pos hspan]
        by_cases huu : u ≤ up
        · rw [if_pos huu, chainedFrom_spec_zero rest up hch u huu,
            max_eq_right hspan.le]
          ring
        · rw [if_neg huu, ih up hch u, max_eq_right hspan.le,
            min_eq_right (le_of_not_le huu)]
          ring

/-- C2 (amended): for a Tier Set satisfying the data-model invariants with
exact contiguity and non-negative prices — such a set passes `validateTiers`
— the volumetric charge is monotonically non-decreasing in usage, equals the
spec's tier-wise sum `Σ price_i · max 0 (min(usage, upper_i) − lower_i)`
(fully-covered widths plus the active tier's partial term), and is
Lipschitz in usage with constant `priceSum` (hence continuous). -/
theorem volumetricCharge_exact_valid (ts : List TierDefinition)
    (hch : chainedFrom 0 ts = true) (hp : ∀ t ∈ ts, 0 ≤ t.price) :
    (validateTiers ts).isValid = true
      ∧ (∀ u1 u2 : ℚ, u1 ≤ u2 →
          computeVolumetricCharge u1 ts ≤ computeVolumetricCharge u2 ts)
      ∧ (∀ u : ℚ, computeVolumetricCharge u ts = computeVolumetricChargeSpec u ts)
      ∧ (∀ u1 u2 : ℚ, u1 ≤ u2 →
          computeVolumetricCharge u2 ts - computeVolumetricCharge u1 ts
            ≤ priceSum ts * (u2 - u1)) := by
  have heq := charge_eq_chargeSpec ts 0 hch
  have hvalid : (validateTiers ts).isValid = true := by
    have hne : ts ≠ [] := by
      intro he
      rw [he, chainedFrom] at hch
      exact absurd hch (by simp)
    obtain ⟨t, rest, rfl⟩ := List.exists_cons_of_ne_nil hne
    rw [validateTiers_cons_eq, tierErrorAux_of_chained _ 0 hch]
  refine ⟨hvalid, ?_, heq, ?_⟩
  · intro u1 u2 h
    rw [heq, heq]
    exact chargeSpec_mono ts hp h
  · intro u1 u2 h
    rw [heq, heq]
    exact chargeSpec_lipschitz ts hp h

/-- C2 (counterexample): the tier set `[0–5 @ 1, 4.999999–∞ @ 2]` passes
`validateTiers` (its overlap of 1e-6 is within the tolerance), yet at
usage 5 the computed charge is 5 while the claimed sum over covered tiers
plus the active tier's partial term is 5 + 2/1000000: the overlap sliver is
skipped by the loop's break, and the charge jumps by that amount just above
usage 5, so the function is neither the claimed sum nor continuous there. -/
theorem volumetricCharge_counterexample :
    (validateTiers [({ lower := 0, upper := some 5, price := 1 } : TierDefinition),
        { lower := 4999999 / 1000000, upper := none, price := 2 }]).isValid = true
      ∧ computeVolumetricCharge 5
          [({ lower := 0, upper := some 5, price := 1 } : TierDefinition),
            { lower := 4999999 / 1000000, upper := none, price := 2 }] = 5
      ∧ computeVolumetricChargeSpec 5
          [({ lower := 0, upper := some 5, price := 1 } : TierDefinition),
            { lower := 4999999 / 1000000, upper := none, price := 2 }] = 5 + 2 / 1000000
      ∧ (5 : ℚ) ≠ 5 + 2 / 1000000 := by
  refine ⟨?_, ?_, ?_, by norm_num⟩
  · have herr : tierErrorAux 0 [({ lower := 0, upper := some 5, price := 1 } : TierDefinition),
        { lower := 4999999 / 1000000, upper := none, price := 2 }] = none := by
      rw [tierErrorAux]
      rw [if_neg (not_not_intro (by norm_num : |(0 : ℚ) - 0| ≤ 1e-6))]
      dsimp only
      rw [if_neg (by norm_num : ¬((5 : ℚ) ≤ 0))]
      rw [tierErrorAux]
      rw [if_neg (not_not_intro (by
        rw [abs_le]
        constructor <;> norm_num : |(4999999 / 1000000 : ℚ) - 5| ≤ 1e-6))]
      dsimp only
      rw [if_pos rfl]
    rw [validateTiers_cons_eq, herr]
  · rw [computeVolumetricCharge]
    rw [if_neg (by norm_num : ¬((5 : ℚ) ≤ 0))]
    dsimp only [cappedAt]
    rw [if_pos (le_refl (5 : ℚ))]
    norm_num [min_def]
  · rw [chargeSpec_cons, chargeSpec_cons, chargeSpec_nil]
    dsimp only [cappedAt]
    norm_num [min_def, max_def]

theorem volumetricCharge_exact_valid_witness :
    (validateTiers [({ lower := 0, upper := some 5, price := 3.5 } : TierDefinition),
        { lower := 5, upper := none, price := 5 }]).isValid = true
      ∧ computeVolumetricCharge 3
          [({ lower := 0, upper := some 5, price := 3.5 } : TierDefinition),
            { lower := 5, upper := none, price := 5 }]
        ≤ computeVolumetricCharge 6
          [({ lower := 0, upper := some 5, price := 3.5 } : TierDefinition),
            { lower := 5, upper := none, price := 5 }]
      ∧ computeVolumetricCharge 6
          [({ lower := 0, upper := some 5, price := 3.5 } : TierDefinition),
            { lower := 5, upper := none, price := 5 }]
        = computeVolumetricChargeSpec 6
          [({ lower := 0, upper := some 5, price := 3.5 } : TierDefinition),
            { lower := 5, upper := none, price := 5 }]
      ∧ computeVolumetricCharge 6
            [({ lower := 0, upper := some 5, price := 3.5 } : TierDefinition),
              { lower := 5, upper := none, price := 5 }]
          - computeVolumetricCharge 3
            [({ lower := 0, upper := some 5, price := 3.5 } : TierDefinition),
              { lower := 5, upper := none, price := 5 }]
        ≤ priceSum [({ lower := 0, upper := some 5, price := 3.5 } : TierDefinition),
            { lower := 5, upper := none, price := 5 }] * (6 - 3) := by
  have hch : chainedFrom 0 [({ lower := 0, upper := some 5, price := 3.5 } : TierDefinition),
      { lower := 5, upper := none, price := 5 }] = true := by
    simp [chainedFrom]
  have hp : ∀ t ∈ [({ lower := 0, upper := some 5, price := 3.5 } : TierDefinition),
      { lower := 5, upper := none, price := 5 }], 0 ≤ t.price := by
    intro t ht
    simp only [List.mem_cons, List.mem_singleton] at ht
    rcases ht with rfl | rfl | h
    · norm_num
    · norm_num
    · exact absurd h (List.not_mem_nil t)
  have H := volumetricCharge_exact_valid _ hch hp
  exact ⟨H.1, H.2.1 3 6 (by norm_num), H.2.2.1 6, H.2.2.2 3 6 (by norm_num)⟩

theorem sum_range_segments (l : List ℕ) (f : ℕ → ℚ) (e : ℕ → ℕ)
    (hmono : ∀ d, e d ≤ e (d + 1)) (h0 : e 0 = 0) :
    ∀ k, ((List.range k).map (fun d =>
        (((l.drop (e d)).take (e (d + 1) - e d)).map f).sum)).sum
      = ((l.take (e k)).map f).sum := by
  intro k
  induction k with
  | zero => simp [h0]
  | succ k ih =>
    rw [List.range_succ, List.map_append, List.sum_append, ih]
    simp only [List.map_cons, List.map_nil, List.sum_cons, List.sum_nil, add_zero]
    have hsplit : e (k + 1) = e k + (e (k + 1) - e k) := (Nat.add_sub_cancel' (hmono k)).symm
    conv_rhs => rw [hsplit, List.take_add, List.map_append, List.sum_append]

/-- C7: the ten decile `deltaMG` values of `computeDecileImpacts` sum to
`connections / sampleCount / 1000` times the total per-individual usage
delta, for equal-length baseline/proposal samples and positive
connections — exact over ℚ, hence within floating rounding in the source. -/
theorem decileImpacts_sum_conservation (q0 q1 : List ℚ) (connections : ℚ)
    (hc : 0 < connections) (hlen : q0.length = q1.length) :
    ((computeDecileImpacts q0 q1 connections).map DecileImpact.deltaMG).sum
      = connections / (q0.length : ℚ) / 1000
        * ((List.range q0.length).map (fun i => q1.getD i 0 - q0.getD i 0)).sum := by
  have hmin : min q0.length q1.length = q0.length := by rw [hlen, min_self]
  by_cases hS : q0.length = 0
  · rw [computeDecileImpacts]
    dsimp only
    rw [if_pos (Or.inl (by rw [hmin, hS]))]
    simp [hS, Function.comp_def]
  · rw [computeDecileImpacts]
    dsimp only
    rw [if_neg (by
      rintro (h | h)
      · rw [hmin] at h
        exact hS h
      · exact hc.ne' h)]
    rw [List.map_map, List.map_map]
    dsimp only [Function.comp_def]
    rw [List.sum_map_mul_right]
    have hfun : decileSegmentDelta q0 q1 = fun d =>
        ((((decileIndices q0 q1).drop (d * min q0.length q1.length / 10)).take
            ((d + 1) * min q0.length q1.length / 10 - d * min q0.length q1.length / 10)).map
          (fun j => q1.getD j 0 - q0.getD j 0)).sum := by
      funext d
      rfl
    rw [hfun, sum_range_segments (decileIndices q0 q1)
      (fun j => q1.getD j 0 - q0.getD j 0)
      (fun d => d * min q0.length q1.length / 10)
      (fun d => Nat.div_le_div_right (Nat.mul_le_mul_right _ (Nat.le_succ d)))
      (by simp) 10]
    have hidx : (decileIndices q0 q1).length = min q0.length q1.length := by
      rw [decileIndices, List.length_mergeSort, List.length_range]
    rw [show 10 * min q0.length q1.length / 10 = (decileIndices q0 q1).length by omega,
      List.take_length]
    have hperm : ((decileIndices q0 q1).map (fun j => q1.getD j 0 - q0.getD j 0)).sum
        = (((List.range (min q0.length q1.length)).map
            (fun j => q1.getD j 0 - q0.getD j 0))).sum :=
      ((List.mergeSort_perm (List.range (min q0.length q1.length)) _).map _).sum_eq
    rw [hperm, hmin]
    ring

theorem decileImpacts_sum_conservation_witness :
    (0 : ℚ) < 1000 ∧ ([1, 2] : List ℚ).length = ([2, 4] : List ℚ).length
      ∧ ((computeDecileImpacts [1, 2] [2, 4] 1000).map DecileImpact.deltaMG).sum
        = 1000 / (([1, 2] : List ℚ).length : ℚ) / 1000
          * ((List.range ([1, 2] : List ℚ).length).map
              (fun i => ([2, 4] : List ℚ).getD i 0 - ([1, 2] : List ℚ).getD i 0)).sum :=
  ⟨by norm_num, rfl, decileImpacts_sum_conservation [1, 2] [2, 4] 1000 (by norm_num) rfl⟩

end WaterRate
